import Mathlib

/-!
Verification of the prep-phase orchestration engine of the lifecycle-agent
repository: a shallow embedding of `controllers/prep_handlers.go` and the
`common` utilities file, with theorems settling the specification claims.

Conventions of the embedding:
- Go errors become `Option String` / `Except String _` values carrying the
  formatted message (format verbs are rendered by string concatenation).
- External collaborators (the Kubernetes client, podman, the precache job)
  are parameters: their outcomes are inputs to the embedded functions.
- The int64 values of version parsing are modelled as `Int` with the int64
  range enforced at the parse boundary, as `strconv.ParseInt` does.
-/

namespace LCA

/-! ## Precache job status and `queryPrecachingStatus`
Embeds `precache.Status` (a phase string among Active / Succeeded / Failed,
plus a message) and the outcomes `Precache.QueryJobStatus` can produce. -/

inductive JobPhase where
  | active
  | succeeded
  | failed
deriving DecidableEq, Repr

structure PrecacheStatus where
  status : JobPhase
  message : String
deriving DecidableEq, Repr

/-- One outcome of `r.Precache.QueryJobStatus(ctx)`:
`ok s` is a non-nil status with nil error, `nilStatus` is a nil status with
nil error, `queryErr` is a non-nil error (with nil status), which
`queryPrecachingStatus` passes through unchanged and is never
`precache.ErrFailed` (that sentinel is produced only by
`queryPrecachingStatus` itself from a `Failed` status). -/
inductive QueryOutcome where
  | ok (s : PrecacheStatus)
  | nilStatus
  | queryErr
deriving DecidableEq, Repr

/-- Result of one invocation of the condition function returned by
`verifyPrecachingCompleteFunc`:
`jobFailed` is `(false, precache.ErrFailed)`, `done` is `(true, nil)`,
`notYet` is `(false, nil)`, `exhausted` is the budget-exhausted error
`(false, fmt.Errorf("failed more than %d times ..."))`. -/
inductive InnerRes where
  | jobFailed
  | done
  | notYet
  | exhausted
deriving DecidableEq, Repr

/-- State returned by one run of the inner retry loop of
`verifyPrecachingCompleteFunc`: the loop result, the final value of
`r.PrepTask.Progress`, the index of the next unconsumed query outcome, the
number of queries performed, and the number of `time.Sleep(interval)` calls. -/
structure VerifyOut where
  res : InnerRes
  progress : String
  next : Nat
  queries : Nat
  sleeps : Nat
deriving DecidableEq, Repr

/-- The `for retry := 0; retry < retries; retry++` loop body of
`verifyPrecachingCompleteFunc` in `prep_handlers.go`, driven by a stream
`outs` of query outcomes starting at index `i`. Each iteration runs
`queryPrecachingStatus`:
- a `Failed` status makes `queryPrecachingStatus` return `ErrFailed`, and the
  loop returns `(false, err)` immediately, before any progress update;
- otherwise a non-nil status first updates `r.PrepTask.Progress` when its
  message is non-empty, then `Succeeded` returns `(true, nil)` and `Active`
  returns `(false, nil)`;
- a nil status or a non-`ErrFailed` query error falls through to
  `time.Sleep(interval)` and the next iteration;
- an exhausted budget returns the budget-exhausted error. -/
def verifyAux (outs : Nat → QueryOutcome) (i : Nat) (fuel : Nat)
    (p : String) (q s : Nat) : VerifyOut :=
  match fuel with
  | 0 => ⟨.exhausted, p, i, q, s⟩
  | fuel' + 1 =>
    match outs i with
    | .ok st =>
      if st.status = .failed then ⟨.jobFailed, p, i + 1, q + 1, s⟩
      else
        let p' := if st.message ≠ "" then "Precaching progress: " ++ st.message else p
        if st.status = .succeeded then ⟨.done, p', i + 1, q + 1, s⟩
        else ⟨.notYet, p', i + 1, q + 1, s⟩
    | .nilStatus => verifyAux outs (i + 1) fuel' p (q + 1) (s + 1)
    | .queryErr => verifyAux outs (i + 1) fuel' p (q + 1) (s + 1)

/-- One invocation of the condition function built by
`verifyPrecachingCompleteFunc(retries, interval)`, with `r.PrepTask.Progress`
initially `p` and query outcomes `outs` from index `i`. -/
def verifyPrecachingComplete (retries : Nat) (outs : Nat → QueryOutcome)
    (i : Nat) (p : String) : VerifyOut :=
  verifyAux outs i retries p 0 0

/-- Overall result of the outer `wait.PollUntilContextCancel` wait around the
condition function: `canceled` stands for the context being canceled (which
in the model also covers running out of outer fuel). -/
inductive OuterRes where
  | success
  | jobFailedErr
  | exhaustedErr
  | canceled
deriving DecidableEq, Repr

/-- The outer `wait.PollUntilContextCancel(derivedCtx, interval, false, cond)`
loop: it repeatedly waits one interval and invokes the condition function;
`(true, nil)` stops with success, a non-nil error stops with that error, and
`(false, nil)` waits and re-invokes. `fuel` bounds the number of condition
invocations before the model treats the wait as canceled. Returns the
result, the final progress, and the total number of status queries. -/
def pollPrecache (outs : Nat → QueryOutcome) (retries : Nat) (i : Nat)
    (fuel : Nat) (p : String) (q : Nat) : OuterRes × String × Nat :=
  match fuel with
  | 0 => (.canceled, p, q)
  | fuel' + 1 =>
    let v := verifyPrecachingComplete retries outs i p
    match v.res with
    | .done => (.success, v.progress, q + v.queries)
    | .jobFailed => (.jobFailedErr, v.progress, q + v.queries)
    | .exhausted => (.exhaustedErr, v.progress, q + v.queries)
    | .notYet => pollPrecache outs retries v.next fuel' v.progress (q + v.queries)

/-- The query-outcome stream observed in testable property 4 of the spec:
first query `Active` with message `m1`, second `Active` with `m2`, third
`Succeeded` with `m3`. -/
def seqAAS (m1 m2 m3 : String) : Nat → QueryOutcome := fun i =>
  if i = 0 then .ok ⟨.active, m1⟩
  else if i = 1 then .ok ⟨.active, m2⟩
  else .ok ⟨.succeeded, m3⟩

/-! ## `RemoveDuplicates` and `GetConfigMaps` (common utilities file) -/

/-- The loop of `RemoveDuplicates` in the `common` utilities file: `result`
is the accumulated output slice and `mp` the key set of the `map[T]bool`
used to test presence (`mp[item]` is set exactly when `item` was appended). -/
def removeDupAux {T : Type} [DecidableEq T] : List T → List T → List T → List T
  | [], result, _ => result
  | item :: rest, result, mp =>
    if item ∈ mp then removeDupAux rest result mp
    else removeDupAux rest (result ++ [item]) (item :: mp)

/-- `RemoveDuplicates[T comparable](list []T) []T` from the `common`
utilities file: starts from an empty result slice and an empty map. -/
def RemoveDuplicates {T : Type} [DecidableEq T] (list : List T) : List T :=
  removeDupAux list [] []

/-- Reference characterization of first-occurrence deduplication: keep the
head, drop its later occurrences from the tail, recurse. -/
def dedupFirstOcc {T : Type} [DecidableEq T] : List T → List T
  | [] => []
  | a :: l => a :: dedupFirstOcc (l.filter (fun x => x ≠ a))
termination_by l => l.length
decreasing_by
  simp_wf
  exact Nat.lt_succ_of_le (List.length_filter_le _ _)

/-- `v1alpha1.ConfigMapRef`: a name/namespace pair identifying a configmap. -/
structure ConfigMapRef where
  name : String
  nspace : String
deriving DecidableEq, Repr

/-- The fetch loop of `GetConfigMaps` over the already-deduplicated list:
`GetConfigMap` (one `client.Get`) is the oracle `fetch`; the first error
aborts the loop and is returned, otherwise the fetched configmaps are
accumulated in order. The second component is the trace of references
actually fetched, in order. -/
def fetchLoop {CM : Type} (fetch : ConfigMapRef → Except String CM) :
    List ConfigMapRef → Except String (List CM) × List ConfigMapRef
  | [] => (.ok [], [])
  | r :: rest =>
    match fetch r with
    | .error e => (.error ("failed to get configMap " ++ e), [r])
    | .ok c =>
      match fetchLoop fetch rest with
      | (.ok cs, tr) => (.ok (c :: cs), r :: tr)
      | (.error e, tr) => (.error e, r :: tr)

/-- `GetConfigMaps` from the `common` utilities file: first removes
duplicate references with the same map-and-append loop as
`RemoveDuplicates` (`cmSet` is the map, `uniqueCms` the accumulator), then
fetches each remaining reference in order. -/
def GetConfigMaps {CM : Type} (fetch : ConfigMapRef → Except String CM)
    (configMaps : List ConfigMapRef) :
    Except String (List CM) × List ConfigMapRef :=
  fetchLoop fetch (removeDupAux configMaps [] [])


/-! ## Retry policy (`isConflictOrRetriable`, `RetryOnConflictOrRetriable`) -/

/-- Classification of an error from a remote API call, as tested by
`apierrors.IsConflict`, `apierrors.IsInternalError`,
`apierrors.IsServiceUnavailable` and `net.IsConnectionRefused`; `other`
covers every error none of those predicates accepts. -/
inductive APIErr where
  | conflict
  | internalError
  | serviceUnavailable
  | connectionRefused
  | other (msg : String)
deriving DecidableEq, Repr

/-- `isConflictOrRetriable` from the `common` utilities file: the
disjunction of the four retriable classifications. -/
def isConflictOrRetriable (e : APIErr) : Bool :=
  match e with
  | .conflict => true
  | .internalError => true
  | .serviceUnavailable => true
  | .connectionRefused => true
  | .other _ => false

/-- `retry.OnError(backoff, isConflictOrRetriable, fn)` as called by
`RetryOnConflictOrRetriable`, with `backoff.Steps = steps` and the `i`-th
invocation of `fn` producing `results i` (`none` is success). Mirrors
`wait.ExponentialBackoff`: each round invokes `fn`; success returns nil; a
non-retriable error is returned as-is; a retriable error is remembered as
`lastErr`, and when it was the last step the loop breaks and `OnError`
returns `lastErr`, otherwise it sleeps and retries. Returns the final error
and the number of invocations of `fn`. -/
def retryOnErrorAux (results : Nat → Option APIErr) :
    Nat → Nat → Option APIErr → Option APIErr × Nat
  | 0, _, last => (last, 0)
  | steps + 1, i, _last =>
    match results i with
    | none => (none, 1)
    | some e =>
      if isConflictOrRetriable e then
        match steps with
        | 0 => (some e, 1)
        | s + 1 =>
          let r := retryOnErrorAux results (s + 1) (i + 1) (some e)
          (r.1, r.2 + 1)
      else (some e, 1)

/-- `RetryOnConflictOrRetriable(backoff, fn)` from the `common` utilities
file, for a backoff schedule of `steps` steps. -/
def RetryOnConflictOrRetriable (steps : Nat)
    (results : Nat → Option APIErr) : Option APIErr × Nat :=
  retryOnErrorAux results steps 0 none

/-! ## go-semver (`semver.NewVersion`, `Version.Compare`) and
`validateSeedOcpVersion`.

Strings are handled as `List Char`; the versions this code compares are
ASCII, where Go's byte-wise string order and the code-point order used here
coincide. The parsed `int64` components are `Int` values kept inside the
int64 range by the parser, exactly as `strconv.ParseInt` rejects
out-of-range numerals with an `ErrRange` error. -/

/-- `splitOff(&input, delim)` for a one-character delimiter: cut at the
first occurrence, returning the part before it and, when the delimiter
occurs, the part after it. -/
def splitFirst (c : Char) : List Char → List Char × Option (List Char)
  | [] => ([], none)
  | a :: rest =>
    if a = c then ([], some rest)
    else
      match splitFirst c rest with
      | (pre, suf) => (a :: pre, suf)

/-- `strings.SplitN(s, ".", 3)`: at most three parts, the third keeping any
remaining dots. -/
def splitN3 (s : List Char) : List (List Char) :=
  match splitFirst '.' s with
  | (p1, none) => [p1]
  | (p1, some r1) =>
    match splitFirst '.' r1 with
    | (p2, none) => [p1, p2]
    | (p2, some r2) => [p1, p2, r2]

/-- `strings.Split(s, ".")`: split at every occurrence. -/
def splitAll (c : Char) (s : List Char) : List (List Char) :=
  let step := fun (acc : List (List Char) × List Char) (a : Char) =>
    if a = c then (acc.1 ++ [acc.2], []) else (acc.1, acc.2 ++ [a])
  let r := s.foldl step ([], [])
  r.1 ++ [r.2]

def digitsVal : List Char → Nat → Option Nat
  | [], acc => some acc
  | c :: rest, acc =>
    if c.isDigit then digitsVal rest (acc * 10 + (c.toNat - '0'.toNat))
    else none

/-- A non-empty all-digit string and its value. -/
def parseDigits (s : List Char) : Option Nat :=
  match s with
  | [] => none
  | _ => digitsVal s 0

/-- `math.MaxInt64 = 2^63 - 1`, the largest value
`strconv.ParseInt(s, 10, 64)` accepts; the smallest is `-(int64Max + 1)`. -/
def int64Max : Nat := 9223372036854775807

/-- `strconv.ParseInt(s, 10, 64)` (= `strconv.Atoi` on 64-bit targets): an
optional sign followed by at least one decimal digit, with the int64 range
enforced — a numeral above `2^63 - 1` (or below `-2^63`) is an `ErrRange`
error, hence `none`. -/
def goParseInt (s : List Char) : Option Int :=
  match s with
  | '+' :: rest =>
    (parseDigits rest).bind (fun n =>
      if n ≤ int64Max then some (n : Int) else none)
  | '-' :: rest =>
    (parseDigits rest).bind (fun n =>
      if n ≤ int64Max + 1 then some (-(n : Int)) else none)
  | _ =>
    (parseDigits s).bind (fun n =>
      if n ≤ int64Max then some (n : Int) else none)

/-- A semver identifier character, per go-semver's
`^[0-9A-Za-z-]+(\.[0-9A-Za-z-]+)*$` identifier pattern. -/
def isIdentChar (c : Char) : Bool :=
  c.isDigit || c.isAlpha || c = '-'

/-- go-semver's `validateIdentifier`: empty is allowed, otherwise every
dot-separated part must be non-empty and drawn from `[0-9A-Za-z-]`. -/
def validId (id : List Char) : Bool :=
  id.isEmpty ||
    (splitAll '.' id).all (fun p => !p.isEmpty && p.all isIdentChar)

structure SemVer where
  major : Int
  minor : Int
  patch : Int
  preRelease : List Char
  metadata : List Char
deriving DecidableEq, Repr

/-- go-semver's `NewVersion` / `Version.Set`: strip metadata at the first
`+`, then the pre-release at the first `-`, split the remainder into
exactly three dot-separated parts, validate the identifiers and parse the
three integers. (Go checks the identifiers before parsing the integers;
both failures collapse to `none` here.) -/
def newVersion (s : String) : Option SemVer :=
  let cs := s.toList
  let m := splitFirst '+' cs
  let metadata := m.2.getD []
  let p := splitFirst '-' m.1
  let preRelease := p.2.getD []
  match splitN3 p.1 with
  | [d1, d2, d3] =>
    if validId preRelease && validId metadata then
      match goParseInt d1, goParseInt d2, goParseInt d3 with
      | some ma, some mi, some pa => some ⟨ma, mi, pa, preRelease, metadata⟩
      | _, _, _ => none
    else none
  | _ => none

def cmpInt (a b : Int) : Int :=
  if a > b then 1 else if a < b then -1 else 0

/-- Go's byte-wise string comparison, on code points (identical on ASCII). -/
def cmpGoStr : List Char → List Char → Int
  | [], [] => 0
  | [], _ :: _ => -1
  | _ :: _, [] => 1
  | x :: a, y :: b =>
    if x.toNat < y.toNat then -1
    else if x.toNat > y.toNat then 1
    else cmpGoStr a b

/-- go-semver's `recursivePreReleaseCompare` on the dot-split pre-release
fields: a shorter field list precedes a longer one, numeric identifiers
precede non-numeric ones, numeric fields compare numerically and the rest
compare as Go strings. -/
def recPreCompare : List (List Char) → List (List Char) → Int
  | [], [] => 0
  | [], _ :: _ => -1
  | _ :: _, [] => 1
  | a :: as, b :: bs =>
    match goParseInt a, goParseInt b with
    | some ai, some bi =>
      if ai > bi then 1 else if ai < bi then -1 else recPreCompare as bs
    | some _, none => -1
    | none, some _ => 1
    | none, none =>
      if a ≠ b then cmpGoStr a b else recPreCompare as bs

/-- go-semver's `preReleaseCompare`: an empty pre-release outranks a
non-empty one; two non-empty ones compare field-wise. -/
def preReleaseCompare (a b : List Char) : Int :=
  if a.isEmpty && !b.isEmpty then 1
  else if !a.isEmpty && b.isEmpty then -1
  else if !a.isEmpty && !b.isEmpty then
    recPreCompare (splitAll '.' a) (splitAll '.' b)
  else 0

/-- go-semver's `Version.Compare`: major, minor, patch lexicographically,
then the pre-release tiebreak. -/
def semverCompare (v w : SemVer) : Int :=
  let c1 := cmpInt v.major w.major
  if c1 ≠ 0 then c1
  else
    let c2 := cmpInt v.minor w.minor
    if c2 ≠ 0 then c2
    else
      let c3 := cmpInt v.patch w.patch
      if c3 ≠ 0 then c3
      else preReleaseCompare v.preRelease w.preRelease

/-- `validateSeedOcpVersion` from `prep_handlers.go`. The target version is
the `ClusterVersion` fetch result (an external collaborator), passed here
as the `targetOCP` string; the Go function errors out first when that fetch
fails, a case outside this gate's version logic. -/
def validateSeedOcpVersion (targetOCP seedOcpVersion : String) : Except String Unit :=
  match newVersion targetOCP with
  | none => .error ("failed to parse target version " ++ targetOCP)
  | some targetSemVer =>
    match newVersion seedOcpVersion with
    | none => .error ("failed to parse seed version " ++ seedOcpVersion)
    | some seedSemVer =>
      if semverCompare seedSemVer targetSemVer ≤ 0 then
        .error ("seed OCP version (" ++ seedOcpVersion ++
          ") must be higher than current OCP version (" ++ targetOCP ++ ")")
      else .ok ()

/-! ## Phase Task State, the worker pipeline and the dispatcher -/

/-- Modelled from the spec: the Phase Task State (`r.PrepTask`; its type and
`Reset` live outside `src/`). `done` — the one-shot completion channel — is
represented by an allocation generation (`doneGen`, bumped by each
`make(chan struct{})`), a closed flag, and a count of `close` operations on
the current channel. -/
structure PrepTask where
  Active : Bool
  Success : Bool
  Progress : String
  doneGen : Nat
  doneClosed : Bool
  doneCloseCount : Nat
deriving DecidableEq, Repr

/-- Modelled from the spec: `Reset()` clears `active`, `success` and
`progress` to initial values and releases the prior cancel/done handles
(the handle fields here just stop being meaningful until the next start,
which allocates fresh ones). -/
def PrepTask.Reset (t : PrepTask) : PrepTask :=
  { t with Active := false, Success := false, Progress := "" }

/-- Modelled from the spec: the externally visible phase status written by
`utils.SetPrepStatusInProgress` / `SetPrepStatusCompleted` /
`SetPrepStatusFailed` (outside `src/`). -/
inductive PhaseStatus where
  | inProgress (msg : String)
  | completed (msg : String)
  | failed (msg : String)
deriving DecidableEq, Repr

/-- Modelled from the spec: the requeue hint returned to the caller
(`doNotRequeue()` / `requeueWithShortInterval()`, outside `src/`). -/
inductive ReconcileResult where
  | doNotRequeue
  | requeueWithShortInterval
deriving DecidableEq, Repr

/-- One dispatcher invocation's effect: the updated task state, the status
published to the resource, the requeue hint, whether a worker pipeline was
launched (`go func` executed), and the cycle error. -/
structure DispatchOut where
  task : PrepTask
  status : Option PhaseStatus
  result : ReconcileResult
  started : Bool
  err : Option String
deriving DecidableEq, Repr

/-- `handlePrep` from `prep_handlers.go`. `envOk` abstracts the
precondition checks (the `/host` stat and workspace-directory creation);
when they fail the cycle errors out immediately with `doNotRequeue` and no
state change. Otherwise: an inactive task allocates a fresh `done` channel,
becomes active with `success=false` and initial progress, launches the
worker and requeues shortly; an active task non-blockingly selects on
`done` — fired publishes the final status from `success` carrying the final
progress, calls `Reset()` and stops requeueing; not fired publishes the
current progress in-progress and requeues shortly. -/
def handlePrep (envOk : Bool) (t : PrepTask) : DispatchOut :=
  if !envOk then
    ⟨t, none, .doNotRequeue, false, some "host dir does not exist"⟩
  else if !t.Active then
    let t' : PrepTask :=
      { t with
        doneGen := t.doneGen + 1
        doneClosed := false
        doneCloseCount := 0
        Active := true
        Success := false
        Progress := "Prep stage initialized" }
    ⟨t', some (.inProgress "Prep stage initialized"),
      .requeueWithShortInterval, true, none⟩
  else if t.doneClosed then
    ⟨t.Reset,
      some (if t.Success then .completed t.Progress else .failed t.Progress),
      .doNotRequeue, false, none⟩
  else
    ⟨t, some (.inProgress t.Progress), .requeueWithShortInterval, false, none⟩

/-- A sequence of `n` dispatcher invocations with the preconditions met and
no intervening worker completion (nothing closes `done` between calls).
Returns the final task and how many invocations launched a worker. -/
def runDispatchSeq : Nat → PrepTask → PrepTask × Nat
  | 0, t => (t, 0)
  | n + 1, t =>
    let o := handlePrep true t
    let r := runDispatchSeq n o.task
    (r.1, (if o.started then 1 else 0) + r.2)

/-- The environment of one `prepStageWorker` run: the versions seen by the
gate, the first pipeline step index (1-based) before whose
cancellation check the worker's context is observed canceled (`none` for
never), and the outcomes of the external collaborators backing each step. -/
structure WorkerEnv where
  seedVersion : String
  targetVersion : String
  cancelAt : Option Nat
  pullResult : Option String
  staterootResult : Option String
  launchResult : Except String Bool
  pollOuts : Nat → QueryOutcome
  pollFuel : Nat

/-- Whether the context-cancellation check at the boundary of step `k`
observes the cancellation: cancellation is monotone, so every check from
step `cancelAt` on sees it. -/
def canceledBefore (cancelAt : Option Nat) (k : Nat) : Bool :=
  match cancelAt with
  | none => false
  | some c => decide (c ≤ k)

/-- The body of the `errGroup.Go` closure in `prepStageWorker`, returning
the closure's error, the list of executed step indices (1 = version gate,
2 = seed-image pull, 3 = stateroot setup, 4 = precaching-job creation,
5 = precaching completion wait, 6 = final summary query), and the final
`r.PrepTask.Progress`. Steps 2–4 are each guarded by a
`select` on `derivedCtx.Done()`; step 1 is not, and step 6 is not. The
completion wait is `wait.PollUntilContextCancel(derivedCtx, interval,
false, r.verifyPrecachingCompleteFunc(5, interval))`, which reacts to
cancellation during the wait itself. -/
def prepWorkerBody (env : WorkerEnv) (p0 : String) :
    Option String × List Nat × String :=
  match validateSeedOcpVersion env.targetVersion env.seedVersion with
  | .error e =>
    (some ("failed to validate seed image OCP version in spec: " ++ e), [1], p0)
  | .ok _ =>
    if canceledBefore env.cancelAt 2 then
      (some "context canceled before pulling seed image: context canceled", [1], p0)
    else
      match env.pullResult with
      | some e =>
        (some ("failed to pull seed image: " ++ e), [1, 2], "Pulling seed image")
      | none =>
        if canceledBefore env.cancelAt 3 then
          (some "context canceled before setting up stateroot: context canceled",
            [1, 2], "Successfully pulled seed image")
        else
          match env.staterootResult with
          | some e =>
            (some ("failed to setup stateroot with prep stage worker: " ++ e),
              [1, 2, 3], "Setting up stateroot")
          | none =>
            if canceledBefore env.cancelAt 4 then
              (some "context canceled before creating precaching job: context canceled",
                [1, 2, 3], "Successfully setup stateroot")
            else
              match env.launchResult with
              | .error e =>
                (some ("failed to launch pre-caching phase: " ++ e),
                  [1, 2, 3, 4], "Creating precaching job")
              | .ok false =>
                (some "failed to create precaching job",
                  [1, 2, 3, 4], "Creating precaching job")
              | .ok true =>
                if canceledBefore env.cancelAt 5 then
                  (some "failed to precache images: context canceled",
                    [1, 2, 3, 4], "Waiting for precaching job to complete")
                else
                  match pollPrecache env.pollOuts 5 0 env.pollFuel
                      "Waiting for precaching job to complete" 0 with
                  | (res, p5, _) =>
                    match res with
                    | .success =>
                      (none, [1, 2, 3, 4, 5, 6], "Prep completed successfully")
                    | .jobFailedErr =>
                      (some "failed to precache images: precaching job failed",
                        [1, 2, 3, 4, 5], p5)
                    | .exhaustedErr =>
                      (some ("failed to precache images: " ++
                        "failed more than 5 times to fetch precaching job status"),
                        [1, 2, 3, 4, 5], p5)
                    | .canceled =>
                      (some "failed to precache images: context canceled",
                        [1, 2, 3, 4, 5], p5)

structure WorkerOut where
  err : Option String
  executed : List Nat
  progress : String
deriving DecidableEq, Repr

/-- `prepStageWorker`: runs the goroutine body, then `errGroup.Wait()`; on
error it records `Prep failed with error: ...` as progress and wraps the
error. -/
def prepStageWorker (env : WorkerEnv) (p0 : String) : WorkerOut :=
  match prepWorkerBody env p0 with
  | (some e, ex, _) =>
    ⟨some ("encountered error while running prep-stage worker goroutine: " ++ e),
      ex, "Prep failed with error: " ++ e⟩
  | (none, ex, p) => ⟨none, ex, p⟩

/-- The `go func` wrapper launched by `handlePrep`: run the worker, close
the completion channel, then record success or failure on the task. -/
def runPrepWorker (env : WorkerEnv) (t : PrepTask) : PrepTask × WorkerOut :=
  let out := prepStageWorker env t.Progress
  ({ t with
      Progress := out.progress
      doneClosed := true
      doneCloseCount := t.doneCloseCount + 1
      Success := out.err.isNone }, out)

/-- The cancellation error produced by the `select` guard of step `k`. -/
def stepCancelMsg (k : Nat) : String :=
  if k = 2 then "context canceled before pulling seed image: context canceled"
  else if k = 3 then "context canceled before setting up stateroot: context canceled"
  else "context canceled before creating precaching job: context canceled"

/-- A worker environment whose context is canceled from the very start
(visible already at step 1), with valid versions and healthy collaborators. -/
def envCanceledAtStart : WorkerEnv :=
  { seedVersion := "4.13.0", targetVersion := "4.12.1", cancelAt := some 1,
    pullResult := none, staterootResult := none, launchResult := .ok true,
    pollOuts := fun _ => .ok ⟨.succeeded, ""⟩, pollFuel := 1 }

/-! ## `checkSeedImageCompatibility` -/

/-- Modelled from the spec: the required format-version OCI label key
(`common.SeedFormatOCILabel`, outside `src/`). -/
def SeedFormatOCILabel : String :=
  "com.openshift.lifecycle-agent.seed_format_version"

/-- Modelled from the spec: the hard-coded seed format version this build
expects (`common.SeedFormatVersion`, outside `src/`), rendered into the
comparison string with `%d`. -/
def SeedFormatVersion : Nat := 1

/-- The outcome of the `podman inspect` execution plus JSON decoding:
a failed execution, an empty output string, undecodable output, or the
decoded list of per-image label maps (a label map as an association list;
keys are unique as in a Go map, `lookup` finds the value). -/
inductive InspectOutcome where
  | execFail
  | emptyOutput
  | badJson
  | parsed (results : List (List (String × String)))
deriving DecidableEq, Repr

/-- `checkSeedImageCompatibility` from `prep_handlers.go`: inspect failure
or empty output is fatal, undecodable output is fatal, an inspect result
count other than one is fatal, a missing format-version label is fatal, a
label value different from the expected version string is fatal; otherwise
the check succeeds. -/
def checkSeedImageCompatibility (seedImageRef : String) (o : InspectOutcome) :
    Except String Unit :=
  match o with
  | .execFail => .error "failed to inspect image"
  | .emptyOutput => .error "failed to inspect image"
  | .badJson => .error "failed to unmarshal image inspect output"
  | .parsed results =>
    match results with
    | [labels] =>
      match labels.lookup SeedFormatOCILabel with
      | none =>
        .error ("seed image " ++ seedImageRef ++ " is missing the " ++
          SeedFormatOCILabel ++
          " label, please build a new image using the latest version of the lca-cli")
      | some v =>
        if v ≠ toString SeedFormatVersion then
          .error ("seed image format version mismatch: expected " ++
            toString SeedFormatVersion ++ ", got " ++ v)
        else .ok ()
    | _ => .error ("expected 1 image inspect result, got " ++ toString results.length)

/-! ## Theorems -/

/-- An inner retry loop whose next `fuel` query outcomes are all
indeterminate (nil status with nil error, or a non-failure query error)
sleeps and retries through all of them and exits with the budget-exhausted
error, having queried and slept once per attempt. -/
theorem verifyAux_indeterminate (outs : Nat → QueryOutcome) (fuel : Nat) :
    ∀ (i : Nat) (p : String) (q s : Nat),
    (∀ j, j < fuel → outs (i + j) = .nilStatus ∨ outs (i + j) = .queryErr) →
    verifyAux outs i fuel p q s = ⟨.exhausted, p, i + fuel, q + fuel, s + fuel⟩ := by
  induction fuel with
  | zero => intro i p q s _; simp [verifyAux]
  | succ n ih =>
    intro i p q s h
    have h0 := h 0 (by omega)
    simp only [Nat.add_zero] at h0
    have hrest : ∀ j, j < n → outs ((i + 1) + j) = .nilStatus ∨ outs ((i + 1) + j) = .queryErr := by
      intro j hj
      have := h (j + 1) (by omega)
      rw [show i + (j + 1) = (i + 1) + j by omega] at this
      exact this
    rcases h0 with h0 | h0 <;>
      simp only [verifyAux, h0] <;>
      rw [ih (i + 1) p (q + 1) (s + 1) hrest] <;>
      simp only [VerifyOut.mk.injEq, true_and] <;>
      omega

/-- C5: for every retry budget `N ≥ 1` and any interval, if the first status
query reports the `Failed` job state, the poller condition function returns
immediately with the failure sentinel (`precache.ErrFailed`), having
performed exactly one query, zero sleeps, and no further attempts, and
leaving the progress untouched. -/
theorem failed_first_query_returns_immediately
    (N : Nat) (outs : Nat → QueryOutcome) (p m : String)
    (hN : 1 ≤ N) (h0 : outs 0 = .ok ⟨.failed, m⟩) :
    verifyPrecachingComplete N outs 0 p = ⟨.jobFailed, p, 1, 1, 0⟩ := by
  obtain ⟨n, rfl⟩ : ∃ n, N = n + 1 := ⟨N - 1, by omega⟩
  simp [verifyPrecachingComplete, verifyAux, h0]

theorem failed_first_query_returns_immediately_witness :
    verifyPrecachingComplete 5 (fun _ => .ok ⟨.failed, "boom"⟩) 0 "p0" =
      ⟨.jobFailed, "p0", 1, 1, 0⟩ :=
  failed_first_query_returns_immediately 5 (fun _ => .ok ⟨.failed, "boom"⟩)
    "p0" "boom" (by omega) rfl

/-- C6: for every retry budget `N`, if all `N` query attempts in one
invocation of the poller condition are indeterminate (nil status with no
error, or a non-failure query error), the poller sleeps between attempts
(`N` sleeps in total, one per attempt including the last) and after the
`N`-th attempt returns the budget-exhausted error, not success and not the
not-yet-done signal. -/
theorem indeterminate_budget_exhausted
    (N : Nat) (outs : Nat → QueryOutcome) (p : String)
    (h : ∀ j, j < N → outs j = .nilStatus ∨ outs j = .queryErr) :
    verifyPrecachingComplete N outs 0 p = ⟨.exhausted, p, N, N, N⟩ := by
  have := verifyAux_indeterminate outs N 0 p 0 0 (by simpa using h)
  simpa [verifyPrecachingComplete] using this

theorem indeterminate_budget_exhausted_witness :
    verifyPrecachingComplete 5 (fun j => if j % 2 = 0 then .nilStatus else .queryErr)
      0 "p0" = ⟨.exhausted, "p0", 5, 5, 5⟩ :=
  indeterminate_budget_exhausted 5 _ "p0" (by decide)

/-- C7: on the status sequence `[Active m1, Active m2, Succeeded m3]` (all
messages non-empty) with retry budget `≥ 3` and enough outer polling fuel,
the whole wait returns success after exactly three queries; each `Active`
observation performs one query, writes the latest progress message to the
task's progress, and returns `notYet` (signalling the outer loop to wait and
re-invoke), and the `Succeeded` observation returns success immediately. -/
theorem active_active_succeeded_three_queries
    (N fuel : Nat) (p m1 m2 m3 : String) (hN : 3 ≤ N) (hf : 3 ≤ fuel)
    (h1 : m1 ≠ "") (h2 : m2 ≠ "") (h3 : m3 ≠ "") :
    pollPrecache (seqAAS m1 m2 m3) N 0 fuel p 0 =
      (.success, "Precaching progress: " ++ m3, 3) ∧
    verifyPrecachingComplete N (seqAAS m1 m2 m3) 0 p =
      ⟨.notYet, "Precaching progress: " ++ m1, 1, 1, 0⟩ ∧
    verifyPrecachingComplete N (seqAAS m1 m2 m3) 1 ("Precaching progress: " ++ m1) =
      ⟨.notYet, "Precaching progress: " ++ m2, 2, 1, 0⟩ ∧
    verifyPrecachingComplete N (seqAAS m1 m2 m3) 2 ("Precaching progress: " ++ m2) =
      ⟨.done, "Precaching progress: " ++ m3, 3, 1, 0⟩ := by
  obtain ⟨n, rfl⟩ : ∃ n, N = n + 1 := ⟨N - 1, by omega⟩
  obtain ⟨f, rfl⟩ : ∃ f, fuel = f + 3 := ⟨fuel - 3, by omega⟩
  refine ⟨?_, ?_, ?_, ?_⟩ <;>
    simp [pollPrecache, verifyPrecachingComplete, verifyAux, seqAAS, h1, h2, h3]

theorem active_active_succeeded_three_queries_witness :
    pollPrecache (seqAAS "a" "b" "c") 3 0 3 "p0" 0 =
      (.success, "Precaching progress: " ++ "c", 3) ∧
    verifyPrecachingComplete 3 (seqAAS "a" "b" "c") 0 "p0" =
      ⟨.notYet, "Precaching progress: " ++ "a", 1, 1, 0⟩ ∧
    verifyPrecachingComplete 3 (seqAAS "a" "b" "c") 1 ("Precaching progress: " ++ "a") =
      ⟨.notYet, "Precaching progress: " ++ "b", 2, 1, 0⟩ ∧
    verifyPrecachingComplete 3 (seqAAS "a" "b" "c") 2 ("Precaching progress: " ++ "b") =
      ⟨.done, "Precaching progress: " ++ "c", 3, 1, 0⟩ :=
  active_active_succeeded_three_queries 3 3 "p0" "a" "b" "c"
    (by omega) (by omega) (by decide) (by decide) (by decide)
theorem removeDupAux_append {T : Type} [DecidableEq T] (l : List T) :
    ∀ (result mp : List T),
    removeDupAux l result mp = result ++ removeDupAux l [] mp := by
  induction l with
  | nil => intro result mp; simp [removeDupAux]
  | cons a l ih =>
    intro result mp
    by_cases h : a ∈ mp
    · simp only [removeDupAux, if_pos h]
      exact ih result mp
    · simp only [removeDupAux, if_neg h, List.nil_append]
      rw [ih (result ++ [a]) (a :: mp), ih [a] (a :: mp), List.append_assoc]

theorem dedupFirstOcc_cons {T : Type} [DecidableEq T] (a : T) (l : List T) :
    dedupFirstOcc (a :: l) = a :: dedupFirstOcc (l.filter (fun x => x ≠ a)) := by
  rw [dedupFirstOcc]

theorem removeDupAux_eq_dedupFirstOcc {T : Type} [DecidableEq T] (l : List T) :
    ∀ mp : List T,
    removeDupAux l [] mp = dedupFirstOcc (l.filter (fun x => x ∉ mp)) := by
  induction l with
  | nil => intro mp; simp [removeDupAux, dedupFirstOcc]
  | cons a l ih =>
    intro mp
    by_cases h : a ∈ mp
    · have hf : (a :: l).filter (fun x => x ∉ mp) = l.filter (fun x => x ∉ mp) := by
        simp [List.filter_cons, h]
      rw [hf, show removeDupAux (a :: l) [] mp = removeDupAux l [] mp by
        simp [removeDupAux, h]]
      exact ih mp
    · have hf : (a :: l).filter (fun x => x ∉ mp) = a :: l.filter (fun x => x ∉ mp) := by
        simp [List.filter_cons, h]
      rw [hf, dedupFirstOcc_cons,
        show removeDupAux (a :: l) [] mp = removeDupAux l [a] (a :: mp) by
          simp [removeDupAux, h],
        removeDupAux_append, ih (a :: mp)]
      have hff : (l.filter (fun x => x ∉ mp)).filter (fun x => x ≠ a)
          = l.filter (fun x => x ∉ (a :: mp)) := by
        rw [List.filter_filter]
        congr 1
        funext x
        by_cases hx : x = a <;> by_cases hm : x ∈ mp <;>
          simp [hx, hm, List.mem_cons]
      rw [hff]
      rfl

/-- `RemoveDuplicates` computes exactly first-occurrence deduplication. -/
theorem removeDuplicates_eq_dedupFirstOcc {T : Type} [DecidableEq T]
    (l : List T) : RemoveDuplicates l = dedupFirstOcc l := by
  rw [RemoveDuplicates, removeDupAux_eq_dedupFirstOcc]
  congr 1
  simp

theorem mem_dedupFirstOcc {T : Type} [DecidableEq T] (l : List T) (x : T) :
    x ∈ dedupFirstOcc l ↔ x ∈ l := by
  induction l using dedupFirstOcc.induct with
  | case1 => simp [dedupFirstOcc]
  | case2 a l ih =>
    rw [dedupFirstOcc_cons]
    constructor
    · intro hmem
      rcases List.mem_cons.mp hmem with rfl | hmem
      · exact List.mem_cons_self _ _
      · exact List.mem_cons_of_mem _ (List.mem_filter.mp (ih.mp hmem)).1
    · intro hmem
      rcases List.mem_cons.mp hmem with rfl | hmem
      · exact List.mem_cons_self _ _
      · by_cases hx : x = a
        · exact hx ▸ List.mem_cons_self _ _
        · exact List.mem_cons_of_mem _
            (ih.mpr (List.mem_filter.mpr ⟨hmem, by simp [hx]⟩))

theorem nodup_dedupFirstOcc {T : Type} [DecidableEq T] (l : List T) :
    (dedupFirstOcc l).Nodup := by
  induction l using dedupFirstOcc.induct with
  | case1 => simp [dedupFirstOcc]
  | case2 a l ih =>
    rw [dedupFirstOcc_cons]
    refine List.nodup_cons.mpr ⟨?_, ih⟩
    intro hmem
    rw [mem_dedupFirstOcc] at hmem
    simp [List.mem_filter] at hmem

theorem dedupFirstOcc_of_nodup {T : Type} [DecidableEq T] (l : List T) :
    l.Nodup → dedupFirstOcc l = l := by
  induction l using dedupFirstOcc.induct with
  | case1 => intro _; simp [dedupFirstOcc]
  | case2 a l ih =>
    intro h
    have ha : a ∉ l := (List.nodup_cons.mp h).1
    have hf : l.filter (fun x => x ≠ a) = l :=
      List.filter_eq_self.mpr
        (fun x hx => decide_eq_true (fun heq => ha (heq ▸ hx)))
    rw [hf] at ih
    rw [dedupFirstOcc_cons, hf, ih (List.nodup_cons.mp h).2]

theorem fetchLoop_trace {CM : Type} (fetch : ConfigMapRef → Except String CM)
    (rs : List ConfigMapRef) (h : ∀ r ∈ rs, ∃ c, fetch r = .ok c) :
    (fetchLoop fetch rs).2 = rs := by
  induction rs with
  | nil => simp [fetchLoop]
  | cons r rest ih =>
    obtain ⟨c, hc⟩ := h r (by simp)
    have ih' := ih (fun x hx => h x (by simp [hx]))
    rcases hrest : fetchLoop fetch rest with ⟨res, tr⟩
    rw [hrest] at ih'
    simp only at ih'
    cases res <;> simp [fetchLoop, hc, hrest, ih']

/-- C10: `RemoveDuplicates` returns exactly the distinct elements of its
input, each exactly once, in first-occurrence order (characterized by
`dedupFirstOcc`), so it is duplicate-free, membership-preserving and
idempotent; and `GetConfigMaps`, when every fetch succeeds, fetches exactly
the distinct configmap references, each once, in first-occurrence order. -/
theorem removeDuplicates_getConfigMaps_spec {T CM : Type} [DecidableEq T]
    (l : List T) (fetch : ConfigMapRef → Except String CM)
    (refs : List ConfigMapRef)
    (hok : ∀ r ∈ refs, ∃ c, fetch r = .ok c) :
    RemoveDuplicates l = dedupFirstOcc l ∧
    (RemoveDuplicates l).Nodup ∧
    (∀ a, a ∈ RemoveDuplicates l ↔ a ∈ l) ∧
    RemoveDuplicates (RemoveDuplicates l) = RemoveDuplicates l ∧
    (GetConfigMaps fetch refs).2 = dedupFirstOcc refs := by
  have h1 := removeDuplicates_eq_dedupFirstOcc l
  refine ⟨h1, ?_, ?_, ?_, ?_⟩
  · rw [h1]; exact nodup_dedupFirstOcc l
  · intro a; rw [h1]; exact mem_dedupFirstOcc l a
  · rw [h1, removeDuplicates_eq_dedupFirstOcc,
      dedupFirstOcc_of_nodup _ (nodup_dedupFirstOcc l)]
  · have hmem : ∀ r ∈ removeDupAux refs [] [], ∃ c, fetch r = .ok c := by
      intro r hr
      apply hok
      have := (mem_dedupFirstOcc refs r).mp
        (by rw [← removeDuplicates_eq_dedupFirstOcc]; exact hr)
      exact this
    rw [GetConfigMaps, fetchLoop_trace fetch _ hmem]
    exact removeDuplicates_eq_dedupFirstOcc refs

theorem removeDuplicates_getConfigMaps_spec_witness :
    RemoveDuplicates [1, 2, 1, 3, 2] = dedupFirstOcc [1, 2, 1, 3, 2] ∧
    (RemoveDuplicates [1, 2, 1, 3, 2]).Nodup ∧
    (∀ a, a ∈ RemoveDuplicates [1, 2, 1, 3, 2] ↔ a ∈ [1, 2, 1, 3, 2]) ∧
    RemoveDuplicates (RemoveDuplicates [1, 2, 1, 3, 2]) =
      RemoveDuplicates [1, 2, 1, 3, 2] ∧
    (GetConfigMaps (fun r => Except.ok r.name)
      [⟨"cm1", "ns"⟩, ⟨"cm1", "ns"⟩, ⟨"cm2", "ns"⟩]).2 =
      dedupFirstOcc [⟨"cm1", "ns"⟩, ⟨"cm1", "ns"⟩, ⟨"cm2", "ns"⟩] :=
  removeDuplicates_getConfigMaps_spec [1, 2, 1, 3, 2]
    (fun r => Except.ok r.name) [⟨"cm1", "ns"⟩, ⟨"cm1", "ns"⟩, ⟨"cm2", "ns"⟩]
    (fun r _ => ⟨r.name, rfl⟩)

theorem retryOnErrorAux_all_retriable (results : Nat → Option APIErr) :
    ∀ (steps i : Nat) (last : Option APIErr), 1 ≤ steps →
    (∀ j, j < steps → ∃ e, results (i + j) = some e ∧ isConflictOrRetriable e = true) →
    retryOnErrorAux results steps i last = (results (i + steps - 1), steps) := by
  intro steps
  induction steps with
  | zero => intro i _ h; omega
  | succ s ih =>
    intro i last _ h
    obtain ⟨e, he, hr⟩ := h 0 (by omega)
    simp only [Nat.add_zero] at he
    match s with
    | 0 => simp [retryOnErrorAux, he, hr]
    | s' + 1 =>
      have hrest : ∀ j, j < s' + 1 →
          ∃ e', results ((i + 1) + j) = some e' ∧ isConflictOrRetriable e' = true := by
        intro j hj
        have := h (j + 1) (by omega)
        rwa [show i + (j + 1) = (i + 1) + j by omega] at this
      have := ih (i + 1) (some e) (by omega) hrest
      simp only [retryOnErrorAux, he, hr, if_pos, this]
      refine Prod.ext ?_ rfl
      simp only
      congr 1
      omega

theorem retryOnErrorAux_success_after (results : Nat → Option APIErr) :
    ∀ (k steps i : Nat) (last : Option APIErr), k < steps →
    (∀ j, j < k → ∃ e, results (i + j) = some e ∧ isConflictOrRetriable e = true) →
    results (i + k) = none →
    retryOnErrorAux results steps i last = (none, k + 1) := by
  intro k
  induction k with
  | zero =>
    intro steps i last hk _ hnone
    simp only [Nat.add_zero] at hnone
    obtain ⟨s, rfl⟩ : ∃ s, steps = s + 1 := ⟨steps - 1, by omega⟩
    simp [retryOnErrorAux, hnone]
  | succ k ih =>
    intro steps i last hk h hnone
    obtain ⟨e, he, hr⟩ := h 0 (by omega)
    simp only [Nat.add_zero] at he
    obtain ⟨s, rfl⟩ : ∃ s, steps = s + 1 := ⟨steps - 1, by omega⟩
    obtain ⟨s', rfl⟩ : ∃ s', s = s' + 1 := ⟨s - 1, by omega⟩
    have hrest : ∀ j, j < k →
        ∃ e', results ((i + 1) + j) = some e' ∧ isConflictOrRetriable e' = true := by
      intro j hj
      have := h (j + 1) (by omega)
      rwa [show i + (j + 1) = (i + 1) + j by omega] at this
    have hnone' : results ((i + 1) + k) = none := by
      rwa [show (i + 1) + k = i + (k + 1) by omega]
    have := ih (s' + 1) (i + 1) (some e) (by omega) hrest hnone'
    simp [retryOnErrorAux, he, hr, this]

/-- C9: the retry policy classifies an error as retriable exactly when it is
a write conflict, an internal server error, a service-unavailable condition
or a connection-refused condition; a non-retriable error stops the wrapped
operation after one invocation and is returned; while errors stay retriable,
the operation is re-invoked until the `steps`-step schedule is exhausted, at
which point the last error is returned after exactly `steps` invocations;
and a success after retriable failures returns success without further
invocations (here: two retriable failures, success on the third call). -/
theorem retry_policy_spec
    (steps : Nat) (rb rc rd : Nat → Option APIErr) (e : APIErr)
    (hs3 : 3 ≤ steps)
    (hb0 : rb 0 = some e) (hbn : isConflictOrRetriable e = false)
    (hc : ∀ j, j < steps → ∃ e', rc j = some e' ∧ isConflictOrRetriable e' = true)
    (hd0 : ∃ e', rd 0 = some e' ∧ isConflictOrRetriable e' = true)
    (hd1 : ∃ e', rd 1 = some e' ∧ isConflictOrRetriable e' = true)
    (hd2 : rd 2 = none) :
    (∀ x, isConflictOrRetriable x = true ↔
      (x = .conflict ∨ x = .internalError ∨ x = .serviceUnavailable ∨
        x = .connectionRefused)) ∧
    RetryOnConflictOrRetriable steps rb = (some e, 1) ∧
    RetryOnConflictOrRetriable steps rc = (rc (steps - 1), steps) ∧
    RetryOnConflictOrRetriable steps rd = (none, 3) := by
  refine ⟨?_, ?_, ?_, ?_⟩
  · intro x
    cases x <;> simp [isConflictOrRetriable]
  · obtain ⟨s, rfl⟩ : ∃ s, steps = s + 1 := ⟨steps - 1, by omega⟩
    simp [RetryOnConflictOrRetriable, retryOnErrorAux, hb0, hbn]
  · have := retryOnErrorAux_all_retriable rc steps 0 none (by omega)
      (by simpa using hc)
    simpa [RetryOnConflictOrRetriable] using this
  · exact retryOnErrorAux_success_after rd 2 steps 0 none (by omega)
      (by
        intro j hj
        match j, hj with
        | 0, _ => simpa using hd0
        | 1, _ => simpa using hd1)
      (by simpa using hd2)

theorem retry_policy_spec_witness :
    (∀ x, isConflictOrRetriable x = true ↔
      (x = .conflict ∨ x = .internalError ∨ x = .serviceUnavailable ∨
        x = .connectionRefused)) ∧
    RetryOnConflictOrRetriable 4 (fun _ => some (.other "fatal")) =
      (some (.other "fatal"), 1) ∧
    RetryOnConflictOrRetriable 4 (fun _ => some .conflict) =
      ((fun _ => some APIErr.conflict) (4 - 1), 4) ∧
    RetryOnConflictOrRetriable 4
      (fun i => if i < 2 then some .serviceUnavailable else none) = (none, 3) :=
  retry_policy_spec 4 (fun _ => some (.other "fatal")) (fun _ => some .conflict)
    (fun i => if i < 2 then some .serviceUnavailable else none) (.other "fatal")
    (by omega) rfl rfl (fun j _ => ⟨.conflict, rfl, rfl⟩)
    ⟨.serviceUnavailable, rfl, rfl⟩ ⟨.serviceUnavailable, rfl, rfl⟩ rfl

theorem runDispatchSeq_active_running (n : Nat) : ∀ t : PrepTask,
    t.Active = true → t.doneClosed = false → runDispatchSeq n t = (t, 0) := by
  induction n with
  | zero => intro t _ _; rfl
  | succ n ih =>
    intro t hA hD
    have hstep : handlePrep true t =
        ⟨t, some (.inProgress t.Progress), .requeueWithShortInterval, false, none⟩ := by
      simp [handlePrep, hA, hD]
    simp [runDispatchSeq, hstep, ih t hA hD]

/-- C1: across any sequence of dispatcher invocations with no intervening
worker completion, starting from an inactive task, exactly one invocation
(the first) starts a worker — `min n 1` starts over `n` invocations; that
first invocation allocates a fresh completion channel (generation bumped,
not closed), marks the task active with `success=false`, and launches the
worker; and every further invocation in the sequence starts nothing and
leaves the task state unchanged. -/
theorem handlePrep_at_most_one_start (n : Nat) (t0 : PrepTask)
    (h0 : t0.Active = false) :
    (runDispatchSeq n t0).2 = min n 1 ∧
    (handlePrep true t0).started = true ∧
    (handlePrep true t0).task.Active = true ∧
    (handlePrep true t0).task.doneGen = t0.doneGen + 1 ∧
    (handlePrep true t0).task.doneClosed = false ∧
    (handlePrep true t0).task.Success = false ∧
    runDispatchSeq n (handlePrep true t0).task = ((handlePrep true t0).task, 0) := by
  have hstart : (handlePrep true t0).started = true ∧
      (handlePrep true t0).task.Active = true ∧
      (handlePrep true t0).task.doneGen = t0.doneGen + 1 ∧
      (handlePrep true t0).task.doneClosed = false ∧
      (handlePrep true t0).task.Success = false := by
    simp [handlePrep, h0]
  have hrun := runDispatchSeq_active_running n (handlePrep true t0).task
    hstart.2.1 hstart.2.2.2.1
  refine ⟨?_, hstart.1, hstart.2.1, hstart.2.2.1, hstart.2.2.2.1, hstart.2.2.2.2, hrun⟩
  match n with
  | 0 => rfl
  | n + 1 =>
    have hrun' := runDispatchSeq_active_running n (handlePrep true t0).task
      hstart.2.1 hstart.2.2.2.1
    simp [runDispatchSeq, hstart.1, hrun']

theorem handlePrep_at_most_one_start_witness :
    (runDispatchSeq 4 ⟨false, false, "", 0, false, 0⟩).2 = min 4 1 ∧
    (handlePrep true ⟨false, false, "", 0, false, 0⟩).started = true ∧
    (handlePrep true ⟨false, false, "", 0, false, 0⟩).task.Active = true ∧
    (handlePrep true ⟨false, false, "", 0, false, 0⟩).task.doneGen = (0 : Nat) + 1 ∧
    (handlePrep true ⟨false, false, "", 0, false, 0⟩).task.doneClosed = false ∧
    (handlePrep true ⟨false, false, "", 0, false, 0⟩).task.Success = false ∧
    runDispatchSeq 4 (handlePrep true ⟨false, false, "", 0, false, 0⟩).task =
      ((handlePrep true ⟨false, false, "", 0, false, 0⟩).task, 0) :=
  handlePrep_at_most_one_start 4 ⟨false, false, "", 0, false, 0⟩ rfl

/-- C4: on a dispatcher invocation with an active task, a fired completion
signal publishes the final status — completed when `success` is true,
failed otherwise, carrying the final progress — resets the task and stops
requeueing; an unfired one publishes the current progress as in-progress
and requeues after a short interval. The `done` check is the value of a
non-blocking select on the task's closed flag. -/
theorem handlePrep_active_dispatch (t u : PrepTask)
    (hA : t.Active = true) (hD : t.doneClosed = true)
    (hA' : u.Active = true) (hD' : u.doneClosed = false) :
    handlePrep true t =
      ⟨t.Reset,
        some (if t.Success then .completed t.Progress else .failed t.Progress),
        .doNotRequeue, false, none⟩ ∧
    handlePrep true u =
      ⟨u, some (.inProgress u.Progress), .requeueWithShortInterval, false, none⟩ := by
  constructor
  · simp [handlePrep, hA, hD]
  · simp [handlePrep, hA', hD']

theorem handlePrep_active_dispatch_witness :
    handlePrep true ⟨true, true, "done!", 1, true, 1⟩ =
      ⟨PrepTask.Reset ⟨true, true, "done!", 1, true, 1⟩,
        some (if (PrepTask.mk true true "done!" 1 true 1).Success then
          .completed (PrepTask.mk true true "done!" 1 true 1).Progress
          else .failed (PrepTask.mk true true "done!" 1 true 1).Progress),
        .doNotRequeue, false, none⟩ ∧
    handlePrep true ⟨true, false, "working", 1, false, 0⟩ =
      ⟨⟨true, false, "working", 1, false, 0⟩,
        some (.inProgress (PrepTask.mk true false "working" 1 false 0).Progress),
        .requeueWithShortInterval, false, none⟩ :=
  handlePrep_active_dispatch ⟨true, true, "done!", 1, true, 1⟩
    ⟨true, false, "working", 1, false, 0⟩ rfl rfl rfl rfl

/-- C2 counterexample: with cancellation signaled before step 1 (the
version gate), the worker still executes step 1 — there is no cancellation
check before it — and the resulting error names step 2 (the seed-image
pull), not step 1. This refutes the claim's "for every step k". -/
theorem prep_cancel_before_step1_counterexample :
    (prepStageWorker envCanceledAtStart "p0").executed = [1] ∧
    1 ∈ (prepStageWorker envCanceledAtStart "p0").executed ∧
    (prepStageWorker envCanceledAtStart "p0").err =
      some ("encountered error while running prep-stage worker goroutine: " ++
        stepCancelMsg 2) := by
  refine ⟨rfl, ?_, rfl⟩
  show 1 ∈ [1]
  simp

/-- C2 amended: for each context-guarded step `k ∈ {2, 3, 4}` (seed-image
pull, stateroot setup, precaching-job creation), the worker tests for
cancellation before step `k`; if cancellation is visible there (and the
preceding steps succeeded), the pipeline aborts with the cancellation error
naming step `k`, exactly steps `1 .. k-1` were executed — so steps `k`
through the end never run — and the completion signal still fires exactly
once: the worker's wrapper closes `done` and records failure. (Step 1 has
no such check — see the counterexample — and the completion wait of step 5
reacts to cancellation through its polling helper with a differently
shaped error.) -/
theorem prep_cancel_guarded_step (env : WorkerEnv) (p0 : String) (k : Nat)
    (t : PrepTask)
    (hk2 : 2 ≤ k) (hk4 : k ≤ 4)
    (hc : env.cancelAt = some k)
    (hval : validateSeedOcpVersion env.targetVersion env.seedVersion = .ok ())
    (hpull : env.pullResult = none)
    (hst : env.staterootResult = none) :
    prepStageWorker env p0 =
      ⟨some ("encountered error while running prep-stage worker goroutine: " ++
          stepCancelMsg k),
        List.range' 1 (k - 1), "Prep failed with error: " ++ stepCancelMsg k⟩ ∧
    (runPrepWorker env t).1.doneClosed = true ∧
    (runPrepWorker env t).1.doneCloseCount = t.doneCloseCount + 1 ∧
    (runPrepWorker env t).1.Success = false := by
  have hbody : prepStageWorker env p0 =
      ⟨some ("encountered error while running prep-stage worker goroutine: " ++
          stepCancelMsg k),
        List.range' 1 (k - 1), "Prep failed with error: " ++ stepCancelMsg k⟩ := by
    have hk : k = 2 ∨ k = 3 ∨ k = 4 := by omega
    rcases hk with rfl | rfl | rfl <;>
      simp [prepStageWorker, prepWorkerBody, canceledBefore, stepCancelMsg,
        hc, hval, hpull, hst, List.range']
  have hbody' : prepStageWorker env t.Progress =
      ⟨some ("encountered error while running prep-stage worker goroutine: " ++
          stepCancelMsg k),
        List.range' 1 (k - 1), "Prep failed with error: " ++ stepCancelMsg k⟩ := by
    have hk : k = 2 ∨ k = 3 ∨ k = 4 := by omega
    rcases hk with rfl | rfl | rfl <;>
      simp [prepStageWorker, prepWorkerBody, canceledBefore, stepCancelMsg,
        hc, hval, hpull, hst, List.range']
  refine ⟨hbody, ?_, ?_, ?_⟩ <;> simp [runPrepWorker, hbody']

theorem prep_cancel_guarded_step_witness :
    prepStageWorker { envCanceledAtStart with cancelAt := some 3 } "p0" =
      ⟨some ("encountered error while running prep-stage worker goroutine: " ++
          stepCancelMsg 3),
        List.range' 1 (3 - 1), "Prep failed with error: " ++ stepCancelMsg 3⟩ ∧
    (runPrepWorker { envCanceledAtStart with cancelAt := some 3 }
      ⟨true, false, "working", 1, false, 0⟩).1.doneClosed = true ∧
    (runPrepWorker { envCanceledAtStart with cancelAt := some 3 }
      ⟨true, false, "working", 1, false, 0⟩).1.doneCloseCount = 0 + 1 ∧
    (runPrepWorker { envCanceledAtStart with cancelAt := some 3 }
      ⟨true, false, "working", 1, false, 0⟩).1.Success = false :=
  prep_cancel_guarded_step { envCanceledAtStart with cancelAt := some 3 } "p0" 3
    ⟨true, false, "working", 1, false, 0⟩ (by omega) (by omega) rfl rfl rfl rfl

/-- C8: the compatibility label check succeeds exactly when the inspection
decoded exactly one result whose labels contain the required format-version
label with precisely the expected value; any exec failure, empty or
undecodable output, result count other than one, missing label, or value
mismatch yields an error. -/
theorem checkSeedImageCompatibility_spec (ref : String) (o : InspectOutcome) :
    (checkSeedImageCompatibility ref o).isOk = true ↔
      ∃ labels, o = .parsed [labels] ∧
        labels.lookup SeedFormatOCILabel = some (toString SeedFormatVersion) := by
  cases o with
  | execFail => simp [checkSeedImageCompatibility, Except.isOk, Except.toBool]
  | emptyOutput => simp [checkSeedImageCompatibility, Except.isOk, Except.toBool]
  | badJson => simp [checkSeedImageCompatibility, Except.isOk, Except.toBool]
  | parsed results =>
    match results with
    | [] => simp [checkSeedImageCompatibility, Except.isOk, Except.toBool]
    | [labels] =>
      cases hl : labels.lookup SeedFormatOCILabel with
      | none => simp [checkSeedImageCompatibility, hl, Except.isOk, Except.toBool]
      | some v =>
        by_cases hv : v = toString SeedFormatVersion
        · subst hv
          simp [checkSeedImageCompatibility, hl, Except.isOk, Except.toBool]
        · simp [checkSeedImageCompatibility, hl, hv, Except.isOk, Except.toBool]
    | l1 :: l2 :: rest => simp [checkSeedImageCompatibility, Except.isOk, Except.toBool]

theorem checkSeedImageCompatibility_spec_witness :
    (checkSeedImageCompatibility "quay.io/seed/img:latest"
      (.parsed [[(SeedFormatOCILabel, "1")]])).isOk = true ↔
      ∃ labels, InspectOutcome.parsed [[(SeedFormatOCILabel, "1")]] = .parsed [labels] ∧
        labels.lookup SeedFormatOCILabel = some (toString SeedFormatVersion) :=
  checkSeedImageCompatibility_spec "quay.io/seed/img:latest"
    (.parsed [[(SeedFormatOCILabel, "1")]])

end LCA
